import Mathlib

/-!
Shallow embedding of the falling-sand simulator (`src/main.rs`) over exact
rational arithmetic.  `f32` values are modelled as `ℚ`; the only
non-algebraic `f32` operation the simulator uses is the square root inside
`vec2_normalized` (via the `vecmath` crate), which is modelled as an
explicit parameter `sq : ℚ → ℚ`.  Theorems that depend on the accuracy of
the square root take a local hypothesis about `sq` at the points where it
is actually evaluated.
-/

/-- 2-D float vector (`type Vec2 = Vector2<f32>`). -/
abbrev Vec2 : Type := ℚ × ℚ

/-- 2-D lattice vector (`type Loc2 = Vector2<isize>`). -/
abbrev Loc2 : Type := ℤ × ℤ

/-- `vecmath::vec2_add` on float vectors. -/
def vec2_add (a b : Vec2) : Vec2 := (a.1 + b.1, a.2 + b.2)

/-- `vecmath::vec2_add` on lattice vectors. -/
def loc2_add (a b : Loc2) : Loc2 := (a.1 + b.1, a.2 + b.2)

/-- `vecmath::vec2_sub`. -/
def vec2_sub (a b : Vec2) : Vec2 := (a.1 - b.1, a.2 - b.2)

/-- `vecmath::vec2_scale`. -/
def vec2_scale (a : Vec2) (s : ℚ) : Vec2 := (a.1 * s, a.2 * s)

/-- `vecmath::vec2_dot`. -/
def vec2_dot (a b : Vec2) : ℚ := a.1 * b.1 + a.2 * b.2

/-- `vecmath::vec2_square_len`. -/
def vec2_square_len (a : Vec2) : ℚ := vec2_dot a a

/-- `vecmath::vec2_len`: the square root of the squared length; the float
square root is the explicit parameter `sq`. -/
def vec2_len (sq : ℚ → ℚ) (a : Vec2) : ℚ := sq (vec2_square_len a)

/-- `vecmath::vec2_normalized`: scale by the inverse length. -/
def vec2_normalized (sq : ℚ → ℚ) (a : Vec2) : Vec2 :=
  vec2_scale a (1 / vec2_len sq a)

/-- `neighbors(loc)`: the 4-connected neighbors, in the fixed source order
`+x, +y, -x, -y`. -/
def neighbors (loc : Loc2) : List Loc2 :=
  [((1 : ℤ), (0 : ℤ)), (0, 1), (-1, 0), (0, -1)].map (fun o => loc2_add o loc)

/-- `velocity_to_offset`: collapse a velocity to one of the 4 unit lattice
directions; strict `>` comparisons, so the y axis wins ties and the
non-positive direction wins on a zero dominant component. -/
def velocity_to_offset (vel : Vec2) : Loc2 :=
  if |vel.1| > |vel.2| then
    if vel.1 > 0 then (1, 0) else (-1, 0)
  else
    if vel.2 > 0 then (0, 1) else (0, -1)

/-- `cap_vec`: normalize vectors whose squared length exceeds 1, leave the
rest unchanged. -/
def cap_vec (sq : ℚ → ℚ) (vec : Vec2) : Vec2 :=
  if vec2_square_len vec > 1 then vec2_normalized sq vec else vec

/-- `enum Species`. -/
inductive Species : Type
  | Air : Species
  | Sand : Species
  | Water : Species
deriving DecidableEq

/-- `Species::get_subgrid_magnitude`. -/
def Species.get_subgrid_magnitude : Species → ℚ
  | .Air => 0
  | .Sand => 0.2
  | .Water => 0.4

/-- `Species::get_solidity`. -/
def Species.get_solidity : Species → ℚ
  | .Air => 0.1
  | .Sand => 1.0
  | .Water => 0.7

/-- `Species::get_mass`. -/
def Species.get_mass : Species → ℚ
  | .Air => 0.1
  | .Sand => 2.5
  | .Water => 1.0

/-- `Species::get_gravity`. -/
def Species.get_gravity : Species → Vec2
  | .Air => (0, 0)
  | .Sand => (0, 1.9)
  | .Water => (0, 1.9)

/-- `Species::get_friction_coeff`. -/
def Species.get_friction_coeff : Species → ℚ
  | .Air => 0.20
  | .Sand => 0.08
  | .Water => 0.05

/-- `Species::get_elasticity`. -/
def Species.get_elasticity : Species → ℚ
  | .Air => 0.8
  | .Sand => 0.0
  | .Water => 0.2

/-- `struct Cell`. -/
structure Cell : Type where
  velocity : Vec2
  motion : Vec2
  species : Species
deriving DecidableEq

/-- `Cell::default()`: Air with zero velocity and motion (`#[derive(Default)]`
with `Species::default() = Air`). -/
def Cell.default : Cell := ⟨(0, 0), (0, 0), Species.Air⟩

/-- `Cell::get_subgrid_offset`. -/
def Cell.get_subgrid_offset (sq : ℚ → ℚ) (c : Cell) : Vec2 :=
  vec2_scale (cap_vec sq c.motion) c.species.get_subgrid_magnitude

/-- The `grid` crate's `Grid<Cell>`: a flat row-major vector together with
the dimensions.  (The crate is an external dependency, not under `src/`;
it is modelled from its documented semantics: `get(row, col)` is
bounds-checked against `rows`/`cols` and indexes `data[row*cols+col]`.) -/
structure SimGrid : Type where
  rows : Nat
  cols : Nat
  data : List Cell
deriving DecidableEq

/-- `grid.get(row, col)`: bounds-checked lookup. -/
def SimGrid.get (g : SimGrid) (row col : Nat) : Option Cell :=
  if row < g.rows ∧ col < g.cols then g.data.get? (row * g.cols + col) else none

/-- Writing through `grid.get_mut(row, col)`: bounds-checked update. -/
def SimGrid.set (g : SimGrid) (row col : Nat) (c : Cell) : SimGrid :=
  if row < g.rows ∧ col < g.cols then
    { g with data := g.data.set (row * g.cols + col) c }
  else g

/-- `grid_get(grid, loc)`: signed coordinates; `try_into` fails on negative
values, and `grid.get` rejects out-of-range ones. -/
def grid_get (g : SimGrid) (loc : Loc2) : Option Cell :=
  if 0 ≤ loc.2 ∧ 0 ≤ loc.1 then g.get loc.2.toNat loc.1.toNat else none

/-- Writing through `grid_get_mut(grid, loc)`. -/
def grid_set (g : SimGrid) (loc : Loc2) (c : Cell) : SimGrid :=
  if 0 ≤ loc.2 ∧ 0 ≤ loc.1 then g.set loc.2.toNat loc.1.toNat c else g

/-- `struct Board`. -/
structure Board : Type where
  grid : SimGrid
deriving DecidableEq

/-- The row-major scan order of `velocity_step` and `motion_step`:
`y` outer over `0..rows`, `x` inner over `0..cols`. -/
def SimGrid.positions (g : SimGrid) : List Loc2 :=
  (List.range g.rows).flatMap (fun y => (List.range g.cols).map (fun x => ((x : ℤ), (y : ℤ))))

/-- `Board::gravity_step`: every cell's velocity is incremented by its
species' gravity. -/
def Board.gravity_step (b : Board) : Board :=
  ⟨{ b.grid with
      data := b.grid.data.map (fun c =>
        { c with velocity := vec2_add c.velocity c.species.get_gravity }) }⟩

/-- The impulse computation of the pushing sub-step (source lines
227-238): given the source cell, the optional destination cell and the
discrete push offset as a float vector, produce the pair
`(our_impact, their_impact)`. -/
def collision_impacts (sq : ℚ → ℚ) (cell : Cell) (other : Option Cell) (rel_pos : Vec2) :
    Vec2 × Vec2 :=
  let our_mass := cell.species.get_mass * cell.species.get_solidity
  let their_mass := (other.map (fun o => o.species.get_mass * o.species.get_solidity)).getD 1.0
  let their_momentum := (other.map (fun o => vec2_scale o.velocity their_mass)).getD (0, 0)
  let system_momentum := vec2_add (vec2_scale cell.velocity our_mass) their_momentum
  let system_velocity := vec2_scale system_momentum (1 / (our_mass + their_mass))
  let subgrid_offset :=
    vec2_sub ((other.map (Cell.get_subgrid_offset sq)).getD (0, 0)) (cell.get_subgrid_offset sq)
  let impact_dir := vec2_normalized sq (vec2_add rel_pos subgrid_offset)
  let elasticity := cell.species.get_elasticity * ((other.map (fun o => o.species.get_elasticity)).getD 0.2)
  let our_impact :=
    vec2_scale impact_dir (vec2_dot impact_dir (vec2_sub cell.velocity system_velocity) * (-(1 + elasticity)))
  let their_impact :=
    (other.map (fun o =>
      vec2_scale impact_dir (vec2_dot impact_dir (vec2_sub o.velocity system_velocity) * (-(1 + elasticity))))).getD (0, 0)
  (our_impact, their_impact)

/-- The pushing sub-step of `Board::velocity_step` (step "1." in the
source) applied at one location.  A failed `unwrap` of the source cell
(impossible on reachable, well-formed grids) is totalised to a no-op. -/
def push_at (sq : ℚ → ℚ) (g : SimGrid) (loc : Loc2) : SimGrid :=
  match grid_get g loc with
  | none => g
  | some cell =>
    let offset := velocity_to_offset cell.velocity
    let rel_pos : Vec2 := ((offset.1 : ℚ), (offset.2 : ℚ))
    let dest := loc2_add loc offset
    let other := grid_get g dest
    let imp := collision_impacts sq cell other rel_pos
    let g1 := grid_set g loc { cell with velocity := vec2_add cell.velocity imp.1 }
    match grid_get g1 dest with
    | some o => grid_set g1 dest { o with velocity := vec2_add o.velocity imp.2 }
    | none => g1

/-- The friction sub-step of `Board::velocity_step` (step "2." in the
source) applied at one location: shed `friction_coeff` of the velocity,
and add `heat / neighbor_mass` to each of the 4 neighbors that exist. -/
def friction_at (g : SimGrid) (loc : Loc2) : SimGrid :=
  match grid_get g loc with
  | none => g
  | some cell =>
    let friction_coeff := cell.species.get_friction_coeff
    let heat := vec2_scale cell.velocity (friction_coeff / 4 * cell.species.get_mass)
    let g1 := grid_set g loc { cell with velocity := vec2_scale cell.velocity (1 - friction_coeff) }
    (neighbors loc).foldl (fun g2 n =>
      match grid_get g2 n with
      | some o => grid_set g2 n { o with velocity := vec2_add o.velocity (vec2_scale heat (1 / o.species.get_mass)) }
      | none => g2) g1

/-- `Board::velocity_step`: row-major pass; at each location the pushing
sub-step then the friction sub-step, with all writes immediately visible. -/
def Board.velocity_step (sq : ℚ → ℚ) (b : Board) : Board :=
  ⟨b.grid.positions.foldl (fun g loc => friction_at (push_at sq g loc) loc) b.grid⟩

/-- `Board::copy_velocity_to_motion`: `motion = cap_vec(motion) + velocity`,
then Air cells get their motion zeroed (the "HACKHACK"). -/
def Board.copy_velocity_to_motion (sq : ℚ → ℚ) (b : Board) : Board :=
  ⟨{ b.grid with
      data := b.grid.data.map (fun c =>
        let c1 := { c with motion := vec2_add (cap_vec sq c.motion) c.velocity }
        if c1.species = Species.Air then { c1 with motion := ((0 : ℚ), (0 : ℚ)) } else c1) }⟩

/-- One location's processing inside `Board::motion_step`: skip when the
squared motion length is below 1; otherwise decrement the motion by the
unit offset and perform the three-swap relocation (a full swap with the
destination slot when it exists, a restore otherwise).  Returns the new
grid and whether work was done at this location. -/
def motion_step_at (g : SimGrid) (loc : Loc2) : SimGrid × Bool :=
  match grid_get g loc with
  | none => (g, false)
  | some cell =>
    if vec2_square_len cell.motion < 1 then (g, false)
    else
      let offset := velocity_to_offset cell.motion
      let rel_pos : Vec2 := ((offset.1 : ℚ), (offset.2 : ℚ))
      let dest := loc2_add loc offset
      let cell1 := { cell with motion := vec2_sub cell.motion rel_pos }
      let g1 := grid_set g loc cell1
      match grid_get g1 dest with
      | some other => (grid_set (grid_set g1 loc other) dest cell1, true)
      | none => (g1, true)

/-- `Board::motion_step`: row-major pass over all locations, tracking
`no_work_done`; returns the updated board and `no_work_done`. -/
def Board.motion_step (b : Board) : Board × Bool :=
  let p := b.grid.positions.foldl (fun (p : SimGrid × Bool) loc =>
    let q := motion_step_at p.1 loc
    (q.1, p.2 && !q.2)) (b.grid, true)
  (⟨p.1⟩, p.2)

/-- The `for _ in 0..4 { self.velocity_step(); }` loop. -/
def velocity_loop (sq : ℚ → ℚ) : Nat → Board → Board
  | 0, b => b
  | n + 1, b => velocity_loop sq n (b.velocity_step sq)

/-- The `for _ in 0..10 { if self.motion_step() { break } }` loop. -/
def motion_passes : Nat → Board → Board
  | 0, b => b
  | n + 1, b =>
    let p := b.motion_step
    if p.2 then p.1 else motion_passes n p.1

/-- `Board::step`: gravity, 4 velocity passes, motion copy, up to 10 motion
passes with early exit. -/
def Board.step (sq : ℚ → ℚ) (b : Board) : Board :=
  motion_passes 10 ((velocity_loop sq 4 b.gravity_step).copy_velocity_to_motion sq)

/-- Modelled from the spec: `Board::new` forwards to the `grid` crate's
`Grid::new(rows, cols)`, which is not part of this repository's sources
(and no manifest pins its version); the spec's construction contract makes
zero dimensions a fatal, fail-fast error, and the crate fills the grid
with `Cell::default()`. -/
def Board.new (cols rows : Nat) : Option Board :=
  if rows = 0 ∨ cols = 0 then none
  else some ⟨⟨rows, cols, List.replicate (rows * cols) Cell.default⟩⟩

/-- The source cell after receiving its push impulse (the record update at
source line 240), with the destination's cell passed as an option. -/
def cell_push_result (sq : ℚ → ℚ) (cell : Cell) (other : Option Cell) : Cell :=
  Cell.mk
    (vec2_add cell.velocity
      (collision_impacts sq cell other
        (((velocity_to_offset cell.velocity).1 : ℚ),
          ((velocity_to_offset cell.velocity).2 : ℚ))).1)
    cell.motion cell.species

/-- The destination cell after receiving the mirrored impulse (the record
update at source line 242). -/
def other_push_result (sq : ℚ → ℚ) (cell other : Cell) : Cell :=
  Cell.mk
    (vec2_add other.velocity
      (collision_impacts sq cell (some other)
        (((velocity_to_offset cell.velocity).1 : ℚ),
          ((velocity_to_offset cell.velocity).2 : ℚ))).2)
    other.motion other.species

/-- The pushing sub-step's boundary rule as the spec words it: a virtual
neighbor of effective mass `1.0` (mass `1.0` times solidity `1`), zero
velocity and zero momentum contribution, zero subgrid offset, and a
combined elasticity of the source species' elasticity times `0.2`.  This
definition follows the spec's words and is compared against the source's
`collision_impacts` with an absent neighbor. -/
def boundary_impact_spec (sq : ℚ → ℚ) (cell : Cell) (rel_pos : Vec2) : Vec2 :=
  let our_mass := cell.species.get_mass * cell.species.get_solidity
  let their_mass : ℚ := 1.0
  let their_momentum : Vec2 := (0, 0)
  let system_momentum := vec2_add (vec2_scale cell.velocity our_mass) their_momentum
  let system_velocity := vec2_scale system_momentum (1 / (our_mass + their_mass))
  let subgrid_offset := vec2_sub (0, 0) (cell.get_subgrid_offset sq)
  let impact_dir := vec2_normalized sq (vec2_add rel_pos subgrid_offset)
  let elasticity := cell.species.get_elasticity * 0.2
  vec2_scale impact_dir
    (vec2_dot impact_dir (vec2_sub cell.velocity system_velocity) * (-(1 + elasticity)))

/-- A 1-by-1 board whose single (Sand) cell has the finite motion vector
`(0, -20)`. -/
def tallMotionBoard : Board := ⟨⟨1, 1, [⟨(0, 0), (0, -20), Species.Sand⟩]⟩⟩

/-- A 3-by-3 all-Air grid whose center cell has velocity `(0, 1)`. -/
def airCross : SimGrid :=
  ⟨3, 3,
    [Cell.default, Cell.default, Cell.default,
     Cell.default, ⟨(0, 1), (0, 0), Species.Air⟩, Cell.default,
     Cell.default, Cell.default, Cell.default]⟩

/-! ### Observables used by the claims -/

/-- The multiset of species over all grid slots. -/
def speciesMS (g : SimGrid) : Multiset Species :=
  (g.data.map Cell.species : Multiset Species)

/-- Total squared motion over the grid (the termination potential of the
motion passes). -/
def motionPhi (g : SimGrid) : ℚ :=
  (g.data.map (fun c => vec2_square_len c.motion)).sum

/-- Total mass-weighted momentum over the grid (true masses). -/
def total_momentum (g : SimGrid) : Vec2 :=
  (g.data.map (fun c => vec2_scale c.velocity c.species.get_mass)).sum

/-- Total effective-mass-weighted momentum over the grid, where the
effective mass is `mass * solidity` exactly as in the pushing sub-step. -/
def total_eff_momentum (g : SimGrid) : Vec2 :=
  (g.data.map (fun c => vec2_scale c.velocity (c.species.get_mass * c.species.get_solidity))).sum

/-- Run exactly `n` unconditional `motion_step` passes. -/
def motion_runs (n : Nat) (b : Board) : Board :=
  (fun b : Board => b.motion_step.1)^[n] b

/-! ### List helper lemmas -/

lemma vec2_add_eq_add (a b : Vec2) : vec2_add a b = a + b := rfl

lemma vec2_sub_eq_sub (a b : Vec2) : vec2_sub a b = a - b := rfl

lemma sum_map_set {α M : Type*} [AddCommGroup M] (f : α → M) :
    ∀ (l : List α) (i : ℕ) (a a₀ : α), l.get? i = some a₀ →
      ((l.set i a).map f).sum = (l.map f).sum - f a₀ + f a
  | [], i, a, a₀, h => by simp at h
  | x :: xs, 0, a, a₀, h => by
      simp only [List.get?_cons_zero, Option.some.injEq] at h
      subst h
      simp only [List.set_cons_zero, List.map_cons, List.sum_cons]
      abel
  | x :: xs, i + 1, a, a₀, h => by
      simp only [List.get?_cons_succ] at h
      simp only [List.set_cons_succ, List.map_cons, List.sum_cons,
        sum_map_set f xs i a a₀ h]
      abel

lemma perm_cons_set {α : Type*} : ∀ (l : List α) (j : ℕ) (a a₀ : α),
    l.get? j = some a₀ → List.Perm (a₀ :: l.set j a) (a :: l)
  | [], j, a, a₀, h => by simp at h
  | x :: xs, 0, a, a₀, h => by
      simp only [List.get?_cons_zero, Option.some.injEq] at h
      subst h
      simpa only [List.set_cons_zero] using List.Perm.swap a x xs
  | x :: xs, j + 1, a, a₀, h => by
      simp only [List.get?_cons_succ] at h
      simp only [List.set_cons_succ]
      exact ((List.Perm.swap x a₀ _).trans
        ((perm_cons_set xs j a a₀ h).cons x)).trans (List.Perm.swap a x xs)

lemma perm_set_set {α : Type*} (l : List α) (i j : ℕ) (x y : α) (hij : i ≠ j)
    (hi : l.get? i = some x) (hj : l.get? j = some y) :
    List.Perm ((l.set i y).set j x) l := by
  have hj2 : (l.set i y).get? j = some y := by
    rw [List.get?_eq_getElem?] at hj ⊢
    rw [List.getElem?_set]
    simp [hij, hj]
  have p1 := perm_cons_set (l.set i y) j x y hj2
  have p2 := perm_cons_set l i y x hi
  exact (p1.trans p2).cons_inv

/-! ### Grid helper lemmas -/

lemma flat_index_inj {C r₁ c₁ r₂ c₂ : ℕ} (h₁ : c₁ < C) (h₂ : c₂ < C)
    (h : r₁ * C + c₁ = r₂ * C + c₂) : r₁ = r₂ ∧ c₁ = c₂ := by
  have e1 : (r₁ * C + c₁) % C = c₁ := by
    rw [Nat.add_comm, Nat.add_mul_mod_self_right, Nat.mod_eq_of_lt h₁]
  have e2 : (r₂ * C + c₂) % C = c₂ := by
    rw [Nat.add_comm, Nat.add_mul_mod_self_right, Nat.mod_eq_of_lt h₂]
  have hc : c₁ = c₂ := by rw [← e1, ← e2, h]
  subst hc
  refine ⟨?_, rfl⟩
  have hC : 0 < C := Nat.lt_of_le_of_lt (Nat.zero_le c₁) h₁
  exact Nat.eq_of_mul_eq_mul_right hC (by omega)

lemma grid_set_rows (g : SimGrid) (loc : Loc2) (c : Cell) :
    (grid_set g loc c).rows = g.rows := by
  unfold grid_set SimGrid.set
  split_ifs <;> rfl

lemma grid_set_cols (g : SimGrid) (loc : Loc2) (c : Cell) :
    (grid_set g loc c).cols = g.cols := by
  unfold grid_set SimGrid.set
  split_ifs <;> rfl

lemma grid_set_length (g : SimGrid) (loc : Loc2) (c : Cell) :
    (grid_set g loc c).data.length = g.data.length := by
  unfold grid_set SimGrid.set
  split_ifs <;> simp

/-- Unfolded form of a successful `grid_get`. -/
lemma grid_get_eq_some_iff (g : SimGrid) (loc : Loc2) (c : Cell) :
    grid_get g loc = some c ↔
      (0 ≤ loc.2 ∧ 0 ≤ loc.1) ∧ (loc.2.toNat < g.rows ∧ loc.1.toNat < g.cols) ∧
        g.data.get? (loc.2.toNat * g.cols + loc.1.toNat) = some c := by
  unfold grid_get SimGrid.get
  split_ifs with h1 h2 <;> simp_all

/-- When the location reads back successfully, `grid_set` is a plain list
update at the flat index. -/
lemma grid_set_data (g : SimGrid) (loc : Loc2) (c c₀ : Cell)
    (h : grid_get g loc = some c₀) :
    (grid_set g loc c).data = g.data.set (loc.2.toNat * g.cols + loc.1.toNat) c := by
  rw [grid_get_eq_some_iff] at h
  unfold grid_set SimGrid.set
  split_ifs with h1 h2 <;> simp_all

lemma grid_get_grid_set_self (g : SimGrid) (loc : Loc2) (c c₀ : Cell)
    (h : grid_get g loc = some c₀) :
    grid_get (grid_set g loc c) loc = some c := by
  have hd := grid_set_data g loc c c₀ h
  rw [grid_get_eq_some_iff] at h ⊢
  obtain ⟨hsgn, hbnd, hget⟩ := h
  have hlen : loc.2.toNat * g.cols + loc.1.toNat < g.data.length := by
    rw [List.get?_eq_getElem?] at hget
    exact List.getElem?_eq_some_iff.mp hget |>.1
  refine ⟨hsgn, by simpa [grid_set_rows, grid_set_cols] using hbnd, ?_⟩
  rw [hd, grid_set_cols, List.get?_eq_getElem?, List.getElem?_set]
  simp [hlen]

lemma grid_get_grid_set_ne (g : SimGrid) (loc loc' : Loc2) (c : Cell)
    (hne : loc' ≠ loc) :
    grid_get (grid_set g loc c) loc' = grid_get g loc' := by
  by_cases hsl : 0 ≤ loc.2 ∧ 0 ≤ loc.1
  · by_cases hbl : loc.2.toNat < g.rows ∧ loc.1.toNat < g.cols
    · have hd : grid_set g loc c =
          { g with data := g.data.set (loc.2.toNat * g.cols + loc.1.toNat) c } := by
        unfold grid_set SimGrid.set
        rw [if_pos hsl, if_pos hbl]
      rw [hd]
      simp only [grid_get, SimGrid.get]
      split_ifs with hsl2 hbl2
      · rw [List.get?_eq_getElem?, List.get?_eq_getElem?, List.getElem?_set]
        by_cases hidx :
            loc.2.toNat * g.cols + loc.1.toNat = loc'.2.toNat * g.cols + loc'.1.toNat
        · exfalso
          obtain ⟨hr, hc⟩ := flat_index_inj hbl.2 hbl2.2 hidx
          apply hne
          have hx : loc'.1 = loc.1 := by
            rw [← Int.toNat_of_nonneg hsl2.2, ← Int.toNat_of_nonneg hsl.2, hc]
          have hy : loc'.2 = loc.2 := by
            rw [← Int.toNat_of_nonneg hsl2.1, ← Int.toNat_of_nonneg hsl.1, hr]
          exact Prod.ext hx hy
        · simp [hidx]
      · rfl
      · rfl
    · unfold grid_set SimGrid.set
      rw [if_pos hsl, if_neg hbl]
  · unfold grid_set
    rw [if_neg hsl]

lemma set_get_self {α : Type*} : ∀ (l : List α) (i : ℕ) (a : α),
    l.get? i = some a → l.set i a = l
  | [], i, a, h => by simp at h
  | x :: xs, 0, a, h => by
      simp only [List.get?_cons_zero, Option.some.injEq] at h
      simp [h]
  | x :: xs, i + 1, a, h => by
      simp only [List.get?_cons_succ] at h
      simp [List.set_cons_succ, set_get_self xs i a h]

lemma grid_get_grid_set_self_none (g : SimGrid) (loc : Loc2) (c : Cell)
    (h : grid_get g loc = none) :
    grid_get (grid_set g loc c) loc = none := by
  by_cases hsl : 0 ≤ loc.2 ∧ 0 ≤ loc.1
  · by_cases hbl : loc.2.toNat < g.rows ∧ loc.1.toNat < g.cols
    · have hd : grid_set g loc c =
          { g with data := g.data.set (loc.2.toNat * g.cols + loc.1.toNat) c } := by
        unfold grid_set SimGrid.set
        rw [if_pos hsl, if_pos hbl]
      have hlen : g.data.length ≤ loc.2.toNat * g.cols + loc.1.toNat := by
        unfold grid_get SimGrid.get at h
        rw [if_pos hsl, if_pos hbl, List.get?_eq_getElem?] at h
        by_contra hlt
        push_neg at hlt
        rw [List.getElem?_eq_getElem hlt] at h
        exact Option.some_ne_none _ h
      rw [hd]
      simp only [grid_get, SimGrid.get]
      split_ifs
      · rw [List.get?_eq_getElem?, List.getElem?_set]
        have hnlt : ¬ loc.2.toNat * g.cols + loc.1.toNat < g.data.length := by omega
        simp [hnlt, List.getElem?_eq_none hlen]
    · unfold grid_set SimGrid.set
      rw [if_pos hsl, if_neg hbl]
      exact h
  · unfold grid_set
    rw [if_neg hsl]
    exact h

lemma grid_set_grid_set_self (g : SimGrid) (loc : Loc2) (a b : Cell) :
    grid_set (grid_set g loc a) loc b = grid_set g loc b := by
  by_cases hsl : 0 ≤ loc.2 ∧ 0 ≤ loc.1
  · by_cases hbl : loc.2.toNat < g.rows ∧ loc.1.toNat < g.cols
    · unfold grid_set SimGrid.set
      simp only [if_pos hsl, if_pos hbl, List.set_set]
    · unfold grid_set SimGrid.set
      simp only [if_pos hsl, if_neg hbl]
  · unfold grid_set
    simp only [if_neg hsl]

lemma grid_get_isSome_grid_set (g : SimGrid) (loc loc' : Loc2) (c : Cell) :
    (grid_get (grid_set g loc c) loc').isSome = (grid_get g loc').isSome := by
  by_cases hne : loc' = loc
  · subst hne
    cases h : grid_get g loc' with
    | none => rw [grid_get_grid_set_self_none g loc' c h]
    | some c₀ =>
        rw [grid_get_grid_set_self g loc' c c₀ h]
        rfl
  · rw [grid_get_grid_set_ne g loc loc' c hne]

lemma flat_idx_ne (g : SimGrid) (loc dest : Loc2) (c₁ c₂ : Cell)
    (h1 : grid_get g loc = some c₁) (h2 : grid_get g dest = some c₂)
    (hne : loc ≠ dest) :
    loc.2.toNat * g.cols + loc.1.toNat ≠ dest.2.toNat * g.cols + dest.1.toNat := by
  rw [grid_get_eq_some_iff] at h1 h2
  intro hidx
  obtain ⟨hr, hc⟩ := flat_index_inj h1.2.1.2 h2.2.1.2 hidx
  apply hne
  refine Prod.ext ?_ ?_
  · rw [← Int.toNat_of_nonneg h1.1.2, ← Int.toNat_of_nonneg h2.1.2, hc]
  · rw [← Int.toNat_of_nonneg h1.1.1, ← Int.toNat_of_nonneg h2.1.1, hr]

lemma map_sum_grid_set {M : Type*} [AddCommGroup M] (f : Cell → M) (g : SimGrid)
    (loc : Loc2) (c c₀ : Cell) (h : grid_get g loc = some c₀) :
    ((grid_set g loc c).data.map f).sum = (g.data.map f).sum - f c₀ + f c := by
  rw [grid_set_data g loc c c₀ h]
  exact sum_map_set f g.data _ c c₀ ((grid_get_eq_some_iff g loc c₀).mp h).2.2

lemma speciesMS_grid_set (g : SimGrid) (loc : Loc2) (c c₀ : Cell)
    (h : grid_get g loc = some c₀) (hsp : c.species = c₀.species) :
    speciesMS (grid_set g loc c) = speciesMS g := by
  unfold speciesMS
  rw [grid_set_data g loc c c₀ h, List.map_set, hsp]
  congr 1
  apply set_get_self
  rw [List.get?_eq_getElem?, List.getElem?_map,
    ← List.get?_eq_getElem?, ((grid_get_eq_some_iff g loc c₀).mp h).2.2]
  rfl

lemma speciesMS_grid_swap (g : SimGrid) (loc dest : Loc2) (cell other c1 : Cell)
    (hne : loc ≠ dest)
    (hloc : grid_get g loc = some cell) (hdest : grid_get g dest = some other)
    (hsp : c1.species = cell.species) :
    speciesMS (grid_set (grid_set g loc other) dest c1) = speciesMS g := by
  have hd1 : (grid_set g loc other).data =
      g.data.set (loc.2.toNat * g.cols + loc.1.toNat) other :=
    grid_set_data g loc other cell hloc
  have hdest1 : grid_get (grid_set g loc other) dest = some other := by
    rw [grid_get_grid_set_ne g loc dest other (Ne.symm hne)]
    exact hdest
  have hd2 : (grid_set (grid_set g loc other) dest c1).data =
      (g.data.set (loc.2.toNat * g.cols + loc.1.toNat) other).set
        (dest.2.toNat * g.cols + dest.1.toNat) c1 := by
    rw [grid_set_data (grid_set g loc other) dest c1 other hdest1, hd1, grid_set_cols]
  unfold speciesMS
  rw [hd2, List.map_set, List.map_set, hsp]
  apply Multiset.coe_eq_coe.mpr
  apply perm_set_set _ _ _ cell.species other.species
    (flat_idx_ne g loc dest cell other hloc hdest hne)
  · rw [List.get?_eq_getElem?, List.getElem?_map, ← List.get?_eq_getElem?,
      ((grid_get_eq_some_iff g loc cell).mp hloc).2.2]
    rfl
  · rw [List.get?_eq_getElem?, List.getElem?_map, ← List.get?_eq_getElem?,
      ((grid_get_eq_some_iff g dest other).mp hdest).2.2]
    rfl

/-- Each relocation removes at least `2/5` from the relocating cell's
squared motion: the dominant component has magnitude at least `7/10`
whenever the squared length is at least 1. -/
lemma sqLen_motion_decrement (x y : ℚ) (h : ¬ vec2_square_len (x, y) < 1) :
    vec2_square_len (vec2_sub (x, y)
      (((velocity_to_offset (x, y)).1 : ℚ), ((velocity_to_offset (x, y)).2 : ℚ)))
      ≤ vec2_square_len (x, y) - 2 / 5 := by
  push_neg at h
  simp only [vec2_square_len, vec2_dot] at h
  unfold velocity_to_offset
  split_ifs with h1 h2 h3
  · have hx0 : 0 < |x| := lt_of_le_of_lt (abs_nonneg y) h1
    have hyx : y * y < x * x := by
      nlinarith [abs_mul_abs_self x, abs_mul_abs_self y,
        mul_pos (sub_pos.mpr h1) (by positivity : (0 : ℚ) < |x| + |y|)]
    simp only [vec2_square_len, vec2_dot, vec2_sub]
    push_cast
    nlinarith [h, hyx, h2]
  · have hx0 : x ≤ 0 := not_lt.mp h2
    have hx0' : 0 < |x| := lt_of_le_of_lt (abs_nonneg y) h1
    have hyx : y * y < x * x := by
      nlinarith [abs_mul_abs_self x, abs_mul_abs_self y,
        mul_pos (sub_pos.mpr h1) (by positivity : (0 : ℚ) < |x| + |y|)]
    simp only [vec2_square_len, vec2_dot, vec2_sub]
    push_cast
    nlinarith [h, hyx, hx0]
  · have hxy : x * x ≤ y * y := by
      nlinarith [abs_mul_abs_self x, abs_mul_abs_self y,
        mul_nonneg (sub_nonneg.mpr (not_lt.mp h1))
          (by positivity : (0 : ℚ) ≤ |y| + |x|)]
    simp only [vec2_square_len, vec2_dot, vec2_sub]
    push_cast
    nlinarith [h, hxy, h3]
  · have hy0 : y ≤ 0 := not_lt.mp h3
    have hxy : x * x ≤ y * y := by
      nlinarith [abs_mul_abs_self x, abs_mul_abs_self y,
        mul_nonneg (sub_nonneg.mpr (not_lt.mp h1))
          (by positivity : (0 : ℚ) ≤ |y| + |x|)]
    simp only [vec2_square_len, vec2_dot, vec2_sub]
    push_cast
    nlinarith [h, hxy, hy0]

lemma sqLen_motion_decrement_vec (m : Vec2) (h : ¬ vec2_square_len m < 1) :
    vec2_square_len (vec2_sub m
      (((velocity_to_offset m).1 : ℚ), ((velocity_to_offset m).2 : ℚ)))
      ≤ vec2_square_len m - 2 / 5 := by
  obtain ⟨x, y⟩ := m
  exact sqLen_motion_decrement x y h

lemma loc_ne_dest (loc : Loc2) (v : Vec2) :
    loc ≠ loc2_add loc (velocity_to_offset v) := by
  unfold velocity_to_offset loc2_add
  split_ifs <;> simp [Prod.ext_iff]

lemma motionPhi_grid_set (g : SimGrid) (loc : Loc2) (c c₀ : Cell)
    (h : grid_get g loc = some c₀) :
    motionPhi (grid_set g loc c) =
      motionPhi g - vec2_square_len c₀.motion + vec2_square_len c.motion :=
  map_sum_grid_set (fun c => vec2_square_len c.motion) g loc c c₀ h

lemma motionPhi_nonneg (g : SimGrid) : 0 ≤ motionPhi g := by
  apply List.sum_nonneg
  intro q hq
  rw [List.mem_map] at hq
  obtain ⟨c, _, rfl⟩ := hq
  unfold vec2_square_len vec2_dot
  exact add_nonneg (mul_self_nonneg _) (mul_self_nonneg _)

/-- The species multiset is unchanged by processing one location of a
motion pass. -/
lemma speciesMS_motion_step_at (g : SimGrid) (loc : Loc2) :
    speciesMS (motion_step_at g loc).1 = speciesMS g := by
  unfold motion_step_at
  split
  · rfl
  · rename_i cell hget
    split
    · rfl
    · rename_i hlt
      dsimp only
      split
      · rename_i other hdest
        rw [grid_set_grid_set_self]
        have hne : loc ≠ loc2_add loc (velocity_to_offset cell.motion) :=
          loc_ne_dest loc cell.motion
        have hdest0 : grid_get g (loc2_add loc (velocity_to_offset cell.motion)) = some other := by
          rw [← grid_get_grid_set_ne g loc (loc2_add loc (velocity_to_offset cell.motion)) _ (Ne.symm hne)]
          exact hdest
        exact speciesMS_grid_swap g loc _ cell other _ hne hget hdest0 rfl
      · exact speciesMS_grid_set g loc _ cell hget rfl

/-- Processing one location either does nothing (reporting no work) or
strictly decreases the total squared motion by at least `2/5`. -/
lemma motion_step_at_cases (g : SimGrid) (loc : Loc2) :
    ((motion_step_at g loc).2 = false ∧ (motion_step_at g loc).1 = g) ∨
    ((motion_step_at g loc).2 = true ∧
      motionPhi (motion_step_at g loc).1 ≤ motionPhi g - 2 / 5) := by
  unfold motion_step_at
  split
  · exact Or.inl ⟨rfl, rfl⟩
  · rename_i cell hget
    split
    · exact Or.inl ⟨rfl, rfl⟩
    · rename_i hlt
      dsimp only
      have hdec := sqLen_motion_decrement_vec cell.motion hlt
      split
      · rename_i other hdest
        refine Or.inr ⟨rfl, ?_⟩
        rw [grid_set_grid_set_self]
        have hne : loc ≠ loc2_add loc (velocity_to_offset cell.motion) :=
          loc_ne_dest loc cell.motion
        have hdest0 : grid_get g (loc2_add loc (velocity_to_offset cell.motion)) = some other := by
          rw [← grid_get_grid_set_ne g loc (loc2_add loc (velocity_to_offset cell.motion)) _ (Ne.symm hne)]
          exact hdest
        have hmid : grid_get (grid_set g loc other)
            (loc2_add loc (velocity_to_offset cell.motion)) = some other := by
          rw [grid_get_grid_set_ne g loc _ other (Ne.symm hne)]
          exact hdest0
        rw [motionPhi_grid_set _ _ _ other hmid, motionPhi_grid_set g loc other cell hget]
        dsimp only
        linarith
      · refine Or.inr ⟨rfl, ?_⟩
        rw [motionPhi_grid_set g loc _ cell hget]
        dsimp only
        linarith

lemma motion_fold_spec : ∀ (locs : List Loc2) (g : SimGrid) (nwd : Bool),
    (motionPhi (locs.foldl (fun (p : SimGrid × Bool) loc =>
        let q := motion_step_at p.1 loc
        (q.1, p.2 && !q.2)) (g, nwd)).1 ≤ motionPhi g) ∧
    ((locs.foldl (fun (p : SimGrid × Bool) loc =>
        let q := motion_step_at p.1 loc
        (q.1, p.2 && !q.2)) (g, nwd)).2 = false →
      nwd = false ∨
        motionPhi (locs.foldl (fun (p : SimGrid × Bool) loc =>
          let q := motion_step_at p.1 loc
          (q.1, p.2 && !q.2)) (g, nwd)).1 ≤ motionPhi g - 2 / 5) ∧
    ((locs.foldl (fun (p : SimGrid × Bool) loc =>
        let q := motion_step_at p.1 loc
        (q.1, p.2 && !q.2)) (g, nwd)).2 = true →
      (locs.foldl (fun (p : SimGrid × Bool) loc =>
        let q := motion_step_at p.1 loc
        (q.1, p.2 && !q.2)) (g, nwd)).1 = g ∧ nwd = true)
  | [], g, nwd => ⟨le_refl _, fun h => Or.inl h, fun h => ⟨rfl, h⟩⟩
  | loc :: locs, g, nwd => by
      rw [List.foldl_cons]
      dsimp only
      rcases motion_step_at_cases g loc with ⟨hw, heq⟩ | ⟨hw, hphi⟩
      · rw [hw, heq]
        simp only [Bool.not_false, Bool.and_true]
        exact motion_fold_spec locs g nwd
      · rw [hw]
        simp only [Bool.not_true, Bool.and_false]
        obtain ⟨ih1, ih2, ih3⟩ := motion_fold_spec locs (motion_step_at g loc).1 false
        refine ⟨le_trans ih1 (by linarith), fun _ => Or.inr (le_trans ih1 (by linarith)), ?_⟩
        intro htrue
        exact absurd (ih3 htrue).2 (by simp)

lemma motion_step_snd_true (b : Board) (h : b.motion_step.2 = true) :
    b.motion_step.1 = b := by
  unfold Board.motion_step at *
  obtain ⟨-, -, h3⟩ := motion_fold_spec b.grid.positions b.grid true
  have := h3 h
  dsimp only
  rw [this.1]

lemma motion_step_snd_false (b : Board) (h : b.motion_step.2 = false) :
    motionPhi b.motion_step.1.grid ≤ motionPhi b.grid - 2 / 5 := by
  unfold Board.motion_step at *
  obtain ⟨-, h2, -⟩ := motion_fold_spec b.grid.positions b.grid true
  rcases h2 h with hfalse | hle
  · exact absurd hfalse (by simp)
  · exact hle

lemma motion_runs_succ (n : ℕ) (b : Board) :
    motion_runs (n + 1) b = motion_runs n b.motion_step.1 := by
  unfold motion_runs
  exact Function.iterate_succ_apply (fun b : Board => b.motion_step.1) n b

lemma motion_terminates_of_bound : ∀ (k : ℕ) (b : Board),
    motionPhi b.grid ≤ k * (2 / 5) →
    ∃ n, n ≤ k ∧ (motion_runs n b).motion_step.2 = true
  | 0, b, hb => by
      cases hw : b.motion_step.2 with
      | true => exact ⟨0, le_refl 0, by simpa [motion_runs] using hw⟩
      | false =>
          exfalso
          have h1 := motion_step_snd_false b hw
          have h2 := motionPhi_nonneg b.motion_step.1.grid
          push_cast at hb
          linarith
  | k + 1, b, hb => by
      cases hw : b.motion_step.2 with
      | true => exact ⟨0, Nat.zero_le _, by simpa [motion_runs] using hw⟩
      | false =>
          have h1 := motion_step_snd_false b hw
          obtain ⟨n, hn, hterm⟩ := motion_terminates_of_bound k b.motion_step.1
            (by push_cast at hb ⊢; linarith)
          exact ⟨n + 1, Nat.succ_le_succ hn, by rw [motion_runs_succ]; exact hterm⟩

lemma speciesMS_fold : ∀ (locs : List Loc2) (g : SimGrid) (nwd : Bool),
    speciesMS ((locs.foldl (fun (p : SimGrid × Bool) loc =>
      let q := motion_step_at p.1 loc
      (q.1, p.2 && !q.2)) (g, nwd)).1) = speciesMS g
  | [], _, _ => rfl
  | loc :: locs, g, nwd => by
      rw [List.foldl_cons]
      dsimp only
      rw [speciesMS_fold locs (motion_step_at g loc).1 (nwd && !(motion_step_at g loc).2),
        speciesMS_motion_step_at]

lemma motion_runs_zero (b : Board) : motion_runs 0 b = b := rfl

lemma motion_runs_one (b : Board) : motion_runs 1 b = b.motion_step.1 := rfl

lemma motion_passes_succ (n : ℕ) (b : Board) :
    motion_passes (n + 1) b =
      if b.motion_step.2 then b.motion_step.1 else motion_passes n b.motion_step.1 := rfl

/-- The bounded motion loop executes some positive number `k ≤ n+1` of
passes: all but the last report work, and if the loop exited early the
last pass reported no work. -/
lemma motion_passes_spec : ∀ (n : ℕ) (b : Board),
    ∃ k, 1 ≤ k ∧ k ≤ n + 1 ∧ motion_passes (n + 1) b = motion_runs k b ∧
      (∀ j, j + 1 < k → (motion_runs j b).motion_step.2 = false) ∧
      (k < n + 1 → (motion_runs (k - 1) b).motion_step.2 = true)
  | 0, b => by
      refine ⟨1, le_refl 1, le_refl 1, ?_, fun j hj => absurd hj (by omega),
        fun h => absurd h (by omega)⟩
      rw [motion_passes_succ]
      by_cases hb : b.motion_step.2 = true
      · rw [if_pos hb, motion_runs_one]
      · rw [if_neg hb, motion_runs_one]
        rfl
  | m + 1, b => by
      rw [motion_passes_succ]
      by_cases hb : b.motion_step.2 = true
      · refine ⟨1, le_refl 1, by omega, ?_, fun j hj => absurd hj (by omega), fun _ => ?_⟩
        · rw [if_pos hb, motion_runs_one]
        · rw [show (1 : ℕ) - 1 = 0 from rfl, motion_runs_zero]
          exact hb
      · have hbf : b.motion_step.2 = false := by
          cases h2 : b.motion_step.2
          · rfl
          · exact absurd h2 hb
        rw [if_neg hb]
        obtain ⟨k, hk1, hkn, heq, hfalse, hlast⟩ := motion_passes_spec m b.motion_step.1
        refine ⟨k + 1, by omega, by omega, ?_, ?_, ?_⟩
        · rw [heq, motion_runs_succ]
        · intro j hj
          cases j with
          | zero => rw [motion_runs_zero]; exact hbf
          | succ i =>
              rw [motion_runs_succ]
              exact hfalse i (by omega)
        · intro hk
          rw [show k + 1 - 1 = k from by omega,
            show k = k - 1 + 1 from by omega, motion_runs_succ]
          exact hlast (by omega)

lemma velocity_loop_eq_iterate (sq : ℚ → ℚ) : ∀ (n : ℕ) (b : Board),
    velocity_loop sq n b = (Board.velocity_step sq)^[n] b
  | 0, _ => rfl
  | n + 1, b => by
      show velocity_loop sq n (b.velocity_step sq) = _
      rw [velocity_loop_eq_iterate sq n (b.velocity_step sq),
        Function.iterate_succ_apply]

lemma grid_get_map (g : SimGrid) (f : Cell → Cell) (loc : Loc2) :
    grid_get { g with data := g.data.map f } loc = (grid_get g loc).map f := by
  simp only [grid_get, SimGrid.get]
  split_ifs
  · rw [List.get?_eq_getElem?, List.get?_eq_getElem?, List.getElem?_map]
  · rfl
  · rfl

/-! ### Claim theorems -/

/-- C1: a single `motion_step` pass leaves the multiset of species values
over all grid cells unchanged — every relocation is a strict swap of the
source and destination cells, so no cell is duplicated or lost. -/
theorem motion_step_preserves_species_multiset (b : Board) :
    speciesMS b.motion_step.1.grid = speciesMS b.grid := by
  unfold Board.motion_step
  dsimp only
  exact speciesMS_fold b.grid.positions b.grid true


lemma motion_runs_succ_apply (n : ℕ) (b : Board) :
    motion_runs (n + 1) b = (motion_runs n b).motion_step.1 := by
  unfold motion_runs
  exact Function.iterate_succ_apply' (fun b : Board => b.motion_step.1) n b

/-- A `motion_step` pass on a 1-by-1 board whose cell has motion `(0, -k)`
with `k ≥ 1`: the destination is out of bounds, so the cell keeps its slot
with its motion decremented to `(0, 1 - k)`, and work is reported. -/
lemma tall_step (k : ℚ) (h1 : 1 ≤ k) :
    (Board.mk ⟨1, 1, [⟨(0, 0), (0, -k), Species.Sand⟩]⟩).motion_step =
      (⟨⟨1, 1, [⟨(0, 0), (0, 1 - k), Species.Sand⟩]⟩⟩, false) := by
  have hlt : ¬ vec2_square_len ((0 : ℚ), -k) < 1 := by
    simp only [vec2_square_len, vec2_dot]
    nlinarith
  have hoff : velocity_to_offset ((0 : ℚ), -k) = (0, -1) := by
    have hk0 : ¬ (0 : ℚ) < -k := by linarith
    have habs : ¬ |(0 : ℚ)| > |(-k : ℚ)| := by
      rw [abs_zero, abs_neg, abs_of_pos (by linarith : (0 : ℚ) < k)]
      linarith
    simp [velocity_to_offset, habs, hk0]
  norm_num [Board.motion_step, SimGrid.positions, motion_step_at, grid_get, grid_set,
    SimGrid.get, SimGrid.set, vec2_sub, List.range_succ, loc2_add, hoff, hlt]
  ring

lemma tall_runs : ∀ j : ℕ, j ≤ 10 →
    motion_runs j tallMotionBoard =
      ⟨⟨1, 1, [⟨(0, 0), (0, (j : ℚ) - 20), Species.Sand⟩]⟩⟩
  | 0, _ => by norm_num [motion_runs, tallMotionBoard]
  | j + 1, hj => by
      rw [motion_runs_succ_apply, tall_runs j (by omega)]
      have hq : (j : ℚ) ≤ 9 := by exact_mod_cast (by omega : j ≤ 9)
      have he : (j : ℚ) - 20 = -(20 - (j : ℚ)) := by ring
      rw [he, tall_step (20 - (j : ℚ)) (by linarith)]
      have h2 : (1 : ℚ) - (20 - (j : ℚ)) = ((j + 1 : ℕ) : ℚ) - 20 := by
        push_cast
        ring
      dsimp only
      rw [h2]

lemma tall_snd (j : ℕ) (hj : j ≤ 9) :
    (motion_runs j tallMotionBoard).motion_step.2 = false := by
  rw [tall_runs j (by omega)]
  have hq : (j : ℚ) ≤ 9 := by exact_mod_cast hj
  have he : (j : ℚ) - 20 = -(20 - (j : ℚ)) := by ring
  rw [he, tall_step (20 - (j : ℚ)) (by linarith)]

/-- C2 (counterexample): on `tallMotionBoard` — one cell with finite motion
`(0, -20)` — every one of the first 10 `motion_step` passes performs a
relocation (returns `no_work_done = false`), so no pass within the
10-iteration cap reports "no work done". -/
theorem motion_cap_insufficient_counterexample :
    ((List.range 10).all
      (fun j => !(motion_runs j tallMotionBoard).motion_step.2)) = true := by
  rw [List.all_eq_true]
  intro j hj
  rw [List.mem_range] at hj
  simp [tall_snd j (by omega)]

/-- C2 (amended): repeatedly invoking `motion_step` reports "no work done"
within finitely many passes — at most `⌈Φ·5/2⌉ + 1` passes where `Φ` is
the total squared motion, since every working pass removes at least `2/5`
from `Φ` — but not necessarily within the 10-iteration cap. -/
theorem motion_step_eventually_no_work (b : Board) :
    ∃ n, n ≤ ⌈motionPhi b.grid * (5 / 2)⌉₊ ∧
      (motion_runs n b).motion_step.2 = true := by
  apply motion_terminates_of_bound
  have h := Nat.le_ceil (motionPhi b.grid * (5 / 2))
  linarith

/-- C5: `step()` runs its phases in strict order — one gravity pass adding
each species' gravity to every cell's velocity, then exactly 4
`velocity_step` passes, then `copy_velocity_to_motion`, then at most 10
`motion_step` passes stopping early the first time a pass performs no
relocation. -/
theorem step_pipeline_phases (sq : ℚ → ℚ) (b : Board) :
    b.step sq = motion_passes 10
        (((Board.velocity_step sq)^[4] b.gravity_step).copy_velocity_to_motion sq) ∧
    (∀ loc, grid_get b.gravity_step.grid loc =
      (grid_get b.grid loc).map (fun c =>
        { c with velocity := vec2_add c.velocity c.species.get_gravity })) ∧
    ∃ k, 1 ≤ k ∧ k ≤ 10 ∧
      b.step sq = motion_runs k
        (((Board.velocity_step sq)^[4] b.gravity_step).copy_velocity_to_motion sq) ∧
      (∀ j, j + 1 < k →
        (motion_runs j
          (((Board.velocity_step sq)^[4] b.gravity_step).copy_velocity_to_motion
            sq)).motion_step.2 = false) ∧
      (k < 10 →
        (motion_runs (k - 1)
          (((Board.velocity_step sq)^[4] b.gravity_step).copy_velocity_to_motion
            sq)).motion_step.2 = true) := by
  have hstep : b.step sq = motion_passes 10
      (((Board.velocity_step sq)^[4] b.gravity_step).copy_velocity_to_motion sq) := by
    unfold Board.step
    rw [velocity_loop_eq_iterate]
  refine ⟨hstep, ?_, ?_⟩
  · intro loc
    unfold Board.gravity_step
    exact grid_get_map b.grid _ loc
  · obtain ⟨k, h1, h10, heq, hf, hl⟩ :=
      motion_passes_spec 9
        (((Board.velocity_step sq)^[4] b.gravity_step).copy_velocity_to_motion sq)
    exact ⟨k, h1, by omega, by rw [hstep]; exact heq, hf, by intro hk; exact hl (by omega)⟩

/-- `push_at` when the destination exists: both cells receive their
impulses (the source first, then the destination). -/
lemma push_at_present (sq : ℚ → ℚ) (g : SimGrid) (loc : Loc2) (cell other : Cell)
    (hc : grid_get g loc = some cell)
    (ho : grid_get g (loc2_add loc (velocity_to_offset cell.velocity)) = some other) :
    push_at sq g loc =
      grid_set (grid_set g loc (cell_push_result sq cell (some other)))
        (loc2_add loc (velocity_to_offset cell.velocity))
        (other_push_result sq cell other) := by
  have hne : loc ≠ loc2_add loc (velocity_to_offset cell.velocity) :=
    loc_ne_dest loc cell.velocity
  unfold push_at
  rw [hc]
  dsimp only
  rw [ho]
  split
  · rename_i o hdest2
    rw [grid_get_grid_set_ne g loc _ _ (Ne.symm hne), ho] at hdest2
    injection hdest2 with h
    subst h
    rfl
  · rename_i hdest2
    rw [grid_get_grid_set_ne g loc _ _ (Ne.symm hne), ho] at hdest2
    exact absurd hdest2 (by simp)

/-- `push_at` when the destination is absent: only the source cell is
updated, its impulse computed against the virtual `none` neighbor; the
mirrored impulse is written nowhere. -/
lemma push_at_absent (sq : ℚ → ℚ) (g : SimGrid) (loc : Loc2) (cell : Cell)
    (hc : grid_get g loc = some cell)
    (ho : grid_get g (loc2_add loc (velocity_to_offset cell.velocity)) = none) :
    push_at sq g loc = grid_set g loc (cell_push_result sq cell none) := by
  have hne : loc ≠ loc2_add loc (velocity_to_offset cell.velocity) :=
    loc_ne_dest loc cell.velocity
  unfold push_at
  rw [hc]
  dsimp only
  rw [ho]
  split
  · rename_i o hdest2
    rw [grid_get_grid_set_ne g loc _ _ (Ne.symm hne), ho] at hdest2
    exact absurd hdest2 (by simp)
  · rfl

/-- Normalizing with an exact square root yields a unit vector. -/
lemma sqLen_normalized (sq : ℚ → ℚ) (v : Vec2)
    (hsq : sq (vec2_square_len v) * sq (vec2_square_len v) = vec2_square_len v)
    (h0 : vec2_square_len v ≠ 0) :
    vec2_square_len (vec2_normalized sq v) = 1 := by
  have ht : sq (vec2_square_len v) ≠ 0 := by
    intro ht0
    rw [ht0, mul_zero] at hsq
    exact h0 hsq.symm
  unfold vec2_normalized vec2_len vec2_scale
  unfold vec2_square_len vec2_dot at *
  field_simp
  linarith [hsq]

/-- C9: `cap_vec` never returns a vector of squared length above 1
(under an exact square root at the evaluated point, hence a fortiori
below `1 + ε`), returns its input unchanged exactly when the input's
squared length is at most 1, and returns the normalized input when it
exceeds 1. -/
theorem cap_vec_spec (sq : ℚ → ℚ) (v : Vec2)
    (hsq : sq (vec2_square_len v) * sq (vec2_square_len v) = vec2_square_len v) :
    vec2_square_len (cap_vec sq v) ≤ 1 ∧
    (vec2_square_len v ≤ 1 → cap_vec sq v = v) ∧
    (1 < vec2_square_len v → cap_vec sq v = vec2_normalized sq v) := by
  refine ⟨?_, ?_, ?_⟩
  · unfold cap_vec
    split_ifs with hgt
    · exact le_of_eq (sqLen_normalized sq v hsq (by intro h0; rw [h0] at hgt; linarith))
    · exact not_lt.mp hgt
  · intro hle
    unfold cap_vec
    rw [if_neg (not_lt.mpr hle)]
  · intro hgt
    unfold cap_vec
    rw [if_pos hgt]

/-- C9 witness at `v = (0, 2)` with a square root that is exact at the
evaluated point `4`. -/
theorem cap_vec_spec_witness :
    vec2_square_len (cap_vec (fun q : ℚ => q / 2) (0, 2)) ≤ 1 ∧
    (vec2_square_len ((0 : ℚ), (2 : ℚ)) ≤ 1 → cap_vec (fun q : ℚ => q / 2) (0, 2) = (0, 2)) ∧
    (1 < vec2_square_len ((0 : ℚ), (2 : ℚ)) →
      cap_vec (fun q : ℚ => q / 2) (0, 2) = vec2_normalized (fun q : ℚ => q / 2) (0, 2)) :=
  cap_vec_spec (fun q : ℚ => q / 2) (0, 2) (by norm_num [vec2_square_len, vec2_dot])

/-- C10: `velocity_to_offset` maps the zero vector — and every vector
whose `|x|` does not exceed `|y|` and whose `y` is not positive — to
`(0, -1)`; hence a zero-velocity cell's push destination in the pushing
sub-step is the cell above (`loc + (0, -1)`): only that pair of cells can
change, and when the upper neighbor exists the two exchange impulses. -/
theorem zero_velocity_pushes_up (sq : ℚ → ℚ) (g : SimGrid) (loc : Loc2) (cell : Cell)
    (hc : grid_get g loc = some cell) (hv : cell.velocity = (0, 0)) :
    (∀ v : Vec2, ¬ |v.1| > |v.2| → ¬ v.2 > 0 → velocity_to_offset v = (0, -1)) ∧
    velocity_to_offset ((0 : ℚ), 0) = (0, -1) ∧
    loc2_add loc (velocity_to_offset cell.velocity) = loc2_add loc (0, -1) ∧
    (∀ loc2, loc2 ≠ loc → loc2 ≠ loc2_add loc (0, -1) →
      grid_get (push_at sq g loc) loc2 = grid_get g loc2) ∧
    (∀ other, grid_get g (loc2_add loc (0, -1)) = some other →
      push_at sq g loc =
        grid_set (grid_set g loc (cell_push_result sq cell (some other)))
          (loc2_add loc (0, -1)) (other_push_result sq cell other)) := by
  have hgen : ∀ v : Vec2, ¬ |v.1| > |v.2| → ¬ v.2 > 0 → velocity_to_offset v = (0, -1) := by
    intro v h1 h2
    unfold velocity_to_offset
    rw [if_neg h1, if_neg h2]
  have hoff : velocity_to_offset cell.velocity = ((0 : ℤ), (-1 : ℤ)) := by
    rw [hv]
    exact hgen ((0 : ℚ), (0 : ℚ)) (by norm_num) (by norm_num)
  refine ⟨hgen, hgen ((0 : ℚ), (0 : ℚ)) (by norm_num) (by norm_num), by rw [hoff], ?_, ?_⟩
  · intro loc2 hne1 hne2
    cases hdest : grid_get g (loc2_add loc (0, -1)) with
    | some other =>
        rw [push_at_present sq g loc cell other hc (by rw [hoff]; exact hdest), hoff]
        rw [grid_get_grid_set_ne _ _ _ _ hne2, grid_get_grid_set_ne _ _ _ _ hne1]
    | none =>
        rw [push_at_absent sq g loc cell hc (by rw [hoff]; exact hdest)]
        rw [grid_get_grid_set_ne _ _ _ _ hne1]
  · intro other hdest
    rw [push_at_present sq g loc cell other hc (by rw [hoff]; exact hdest), hoff]

/-- C10 witness: a 2-row, 1-column all-Air board; the lower cell has zero
velocity, and its push destination `(0, 0)` — the cell above — is
in bounds. -/
theorem zero_velocity_pushes_up_witness :
    grid_get ⟨2, 1, [Cell.default, Cell.default]⟩ ((0 : ℤ), (1 : ℤ)) = some Cell.default ∧
    velocity_to_offset ((0 : ℚ), 0) = (0, -1) ∧
    loc2_add ((0 : ℤ), (1 : ℤ)) (velocity_to_offset Cell.default.velocity) =
      loc2_add ((0 : ℤ), (1 : ℤ)) (0, -1) := by
  have hc : grid_get ⟨2, 1, [Cell.default, Cell.default]⟩ ((0 : ℤ), (1 : ℤ)) =
      some Cell.default := by
    norm_num [grid_get, SimGrid.get]
  have h := zero_velocity_pushes_up (fun q => q) ⟨2, 1, [Cell.default, Cell.default]⟩
    ((0 : ℤ), (1 : ℤ)) Cell.default hc rfl
  exact ⟨hc, h.2.1, h.2.2.1⟩

/-- `motion_step_at` for an over-threshold cell whose destination is out
of bounds: the cell stays in its slot with only its motion decremented. -/
lemma motion_step_at_out (g : SimGrid) (loc : Loc2) (cell : Cell)
    (hc : grid_get g loc = some cell)
    (hbig : ¬ vec2_square_len cell.motion < 1)
    (hout : grid_get g (loc2_add loc (velocity_to_offset cell.motion)) = none) :
    motion_step_at g loc =
      (grid_set g loc (Cell.mk cell.velocity
        (vec2_sub cell.motion
          (((velocity_to_offset cell.motion).1 : ℚ),
            ((velocity_to_offset cell.motion).2 : ℚ)))
        cell.species), true) := by
  have hne : loc ≠ loc2_add loc (velocity_to_offset cell.motion) :=
    loc_ne_dest loc cell.motion
  unfold motion_step_at
  split
  · rename_i hnone
    rw [hc] at hnone
    exact absurd hnone (by simp)
  · rename_i c hsome
    rw [hc] at hsome
    injection hsome with hcc
    subst hcc
    rw [if_neg hbig]
    dsimp only
    split
    · rename_i o hdest2
      rw [grid_get_grid_set_ne g loc _ _ (Ne.symm hne), hout] at hdest2
      exact absurd hdest2 (by simp)
    · rfl

/-- C6: a cell at the grid edge whose motion points outward causes no
out-of-range write during a motion pass — every other slot of the grid is
unchanged — while the cell itself still updates in place: its motion is
decremented by the unit offset and its species and velocity are kept. -/
theorem motion_boundary_safe (g : SimGrid) (loc : Loc2) (cell : Cell)
    (hc : grid_get g loc = some cell)
    (hbig : ¬ vec2_square_len cell.motion < 1)
    (hout : grid_get g (loc2_add loc (velocity_to_offset cell.motion)) = none) :
    (motion_step_at g loc).2 = true ∧
    grid_get (motion_step_at g loc).1 loc =
      some (Cell.mk cell.velocity
        (vec2_sub cell.motion
          (((velocity_to_offset cell.motion).1 : ℚ),
            ((velocity_to_offset cell.motion).2 : ℚ)))
        cell.species) ∧
    (∀ loc2, loc2 ≠ loc → grid_get (motion_step_at g loc).1 loc2 = grid_get g loc2) := by
  rw [motion_step_at_out g loc cell hc hbig hout]
  refine ⟨rfl, ?_, ?_⟩
  · exact grid_get_grid_set_self g loc _ cell hc
  · intro loc2 hne2
    exact grid_get_grid_set_ne g loc loc2 _ hne2

/-- C6 witness: 1-by-1 board, single Sand cell with motion `(0, -2)`
pushing out of the top edge. -/
theorem motion_boundary_safe_witness :
    grid_get ⟨1, 1, [⟨(0, 0), (0, -2), Species.Sand⟩]⟩ ((0 : ℤ), (0 : ℤ)) =
      some ⟨(0, 0), (0, -2), Species.Sand⟩ ∧
    ¬ vec2_square_len ((0 : ℚ), (-2 : ℚ)) < 1 ∧
    (motion_step_at ⟨1, 1, [⟨(0, 0), (0, -2), Species.Sand⟩]⟩ ((0 : ℤ), (0 : ℤ))).2 = true := by
  have hc : grid_get ⟨1, 1, [⟨(0, 0), (0, -2), Species.Sand⟩]⟩ ((0 : ℤ), (0 : ℤ)) =
      some ⟨(0, 0), (0, -2), Species.Sand⟩ := by
    norm_num [grid_get, SimGrid.get]
  have hbig : ¬ vec2_square_len ((0 : ℚ), (-2 : ℚ)) < 1 := by
    norm_num [vec2_square_len, vec2_dot]
  have hout : grid_get ⟨1, 1, [⟨(0, 0), (0, -2), Species.Sand⟩]⟩
      (loc2_add ((0 : ℤ), (0 : ℤ)) (velocity_to_offset ((0 : ℚ), (-2 : ℚ)))) = none := by
    norm_num [velocity_to_offset, loc2_add, grid_get]
  exact ⟨hc, hbig,
    (motion_boundary_safe ⟨1, 1, [⟨(0, 0), (0, -2), Species.Sand⟩]⟩ ((0 : ℤ), (0 : ℤ))
      ⟨(0, 0), (0, -2), Species.Sand⟩ hc hbig hout).1⟩

/-- C7: when the push destination is absent, the source computes exactly
the spec's virtual-neighbor impulse (effective mass 1.0, zero velocity and
momentum, zero subgrid offset, elasticity `cell × 0.2`), applies it to the
source cell only, and discards the mirrored impulse: no other slot of the
grid changes. -/
theorem push_boundary_virtual_cell (sq : ℚ → ℚ) (g : SimGrid) (loc : Loc2) (cell : Cell)
    (hc : grid_get g loc = some cell)
    (hout : grid_get g (loc2_add loc (velocity_to_offset cell.velocity)) = none) :
    (collision_impacts sq cell none
        (((velocity_to_offset cell.velocity).1 : ℚ),
          ((velocity_to_offset cell.velocity).2 : ℚ))).1 =
      boundary_impact_spec sq cell
        (((velocity_to_offset cell.velocity).1 : ℚ),
          ((velocity_to_offset cell.velocity).2 : ℚ)) ∧
    push_at sq g loc =
      grid_set g loc (Cell.mk
        (vec2_add cell.velocity
          (boundary_impact_spec sq cell
            (((velocity_to_offset cell.velocity).1 : ℚ),
              ((velocity_to_offset cell.velocity).2 : ℚ))))
        cell.motion cell.species) ∧
    (∀ loc2, loc2 ≠ loc → grid_get (push_at sq g loc) loc2 = grid_get g loc2) := by
  have hfirst : (collision_impacts sq cell none
      (((velocity_to_offset cell.velocity).1 : ℚ),
        ((velocity_to_offset cell.velocity).2 : ℚ))).1 =
      boundary_impact_spec sq cell
        (((velocity_to_offset cell.velocity).1 : ℚ),
          ((velocity_to_offset cell.velocity).2 : ℚ)) := rfl
  refine ⟨hfirst, ?_, ?_⟩
  · rw [push_at_absent sq g loc cell hc hout]
    rfl
  · intro loc2 hne2
    rw [push_at_absent sq g loc cell hc hout]
    exact grid_get_grid_set_ne g loc loc2 _ hne2

/-- C7 witness: 1-by-1 board, single Sand cell with zero velocity; its
push destination `(0, -1)` is out of bounds. -/
theorem push_boundary_virtual_cell_witness :
    grid_get ⟨1, 1, [⟨(0, 0), (0, 0), Species.Sand⟩]⟩ ((0 : ℤ), (0 : ℤ)) =
      some ⟨(0, 0), (0, 0), Species.Sand⟩ ∧
    (collision_impacts (fun q => q) ⟨(0, 0), (0, 0), Species.Sand⟩ none
        (((velocity_to_offset ((0 : ℚ), (0 : ℚ))).1 : ℚ),
          ((velocity_to_offset ((0 : ℚ), (0 : ℚ))).2 : ℚ))).1 =
      boundary_impact_spec (fun q => q) ⟨(0, 0), (0, 0), Species.Sand⟩
        (((velocity_to_offset ((0 : ℚ), (0 : ℚ))).1 : ℚ),
          ((velocity_to_offset ((0 : ℚ), (0 : ℚ))).2 : ℚ)) := by
  have hc : grid_get ⟨1, 1, [⟨(0, 0), (0, 0), Species.Sand⟩]⟩ ((0 : ℤ), (0 : ℤ)) =
      some ⟨(0, 0), (0, 0), Species.Sand⟩ := by
    norm_num [grid_get, SimGrid.get]
  have hout : grid_get ⟨1, 1, [⟨(0, 0), (0, 0), Species.Sand⟩]⟩
      (loc2_add ((0 : ℤ), (0 : ℤ)) (velocity_to_offset ((0 : ℚ), (0 : ℚ)))) = none := by
    norm_num [velocity_to_offset, loc2_add, grid_get]
  exact ⟨hc,
    (push_boundary_virtual_cell (fun q => q) ⟨1, 1, [⟨(0, 0), (0, 0), Species.Sand⟩]⟩
      ((0 : ℤ), (0 : ℤ)) ⟨(0, 0), (0, 0), Species.Sand⟩ hc hout).1⟩

lemma eff_mass_pos (s : Species) : 0 < s.get_mass * s.get_solidity := by
  cases s <;> norm_num [Species.get_mass, Species.get_solidity]

lemma mass_pos (s : Species) : 0 < s.get_mass := by
  cases s <;> norm_num [Species.get_mass]

lemma vec2_scale_add (a b : Vec2) (s : ℚ) :
    vec2_scale (vec2_add a b) s = vec2_add (vec2_scale a s) (vec2_scale b s) := by
  unfold vec2_scale vec2_add
  exact Prod.ext (by ring) (by ring)

/-- The two push impulses, weighted by the two effective masses
(`mass * solidity`) used to compute them, cancel exactly — for any square
root function and any destination cell. -/
lemma collision_impacts_cancel (sq : ℚ → ℚ) (cell other : Cell) (rel_pos : Vec2) :
    vec2_add
      (vec2_scale (collision_impacts sq cell (some other) rel_pos).1
        (cell.species.get_mass * cell.species.get_solidity))
      (vec2_scale (collision_impacts sq cell (some other) rel_pos).2
        (other.species.get_mass * other.species.get_solidity)) = (0, 0) := by
  have h1 := eff_mass_pos cell.species
  have h2 := eff_mass_pos other.species
  have hsum : cell.species.get_mass * cell.species.get_solidity +
      other.species.get_mass * other.species.get_solidity ≠ 0 := by linarith
  unfold collision_impacts
  dsimp only [Option.map_some, Option.getD_some]
  unfold vec2_scale vec2_add vec2_dot vec2_sub
  refine Prod.ext ?_ ?_ <;>
    (dsimp only; field_simp; ring)

/-- C3 (amended): when the push destination exists, the pushing sub-step
exactly conserves the effective-mass-weighted momentum
`Σ mass·solidity·velocity` (the masses the impulses are scaled by) — for
every grid, cell pair and square root function. -/
theorem push_conserves_effective_momentum (sq : ℚ → ℚ) (g : SimGrid) (loc : Loc2)
    (cell other : Cell) (hc : grid_get g loc = some cell)
    (ho : grid_get g (loc2_add loc (velocity_to_offset cell.velocity)) = some other) :
    total_eff_momentum (push_at sq g loc) = total_eff_momentum g := by
  have hne : loc ≠ loc2_add loc (velocity_to_offset cell.velocity) :=
    loc_ne_dest loc cell.velocity
  rw [push_at_present sq g loc cell other hc ho]
  have hget1 : grid_get (grid_set g loc (cell_push_result sq cell (some other)))
      (loc2_add loc (velocity_to_offset cell.velocity)) = some other := by
    rw [grid_get_grid_set_ne g loc _ _ (Ne.symm hne)]
    exact ho
  unfold total_eff_momentum
  rw [map_sum_grid_set (fun c => vec2_scale c.velocity (c.species.get_mass * c.species.get_solidity))
      _ _ _ other hget1,
    map_sum_grid_set (fun c => vec2_scale c.velocity (c.species.get_mass * c.species.get_solidity))
      _ _ _ cell hc]
  have hcancel := collision_impacts_cancel sq cell other
    (((velocity_to_offset cell.velocity).1 : ℚ), ((velocity_to_offset cell.velocity).2 : ℚ))
  rw [vec2_add_eq_add] at hcancel
  dsimp only [cell_push_result, other_push_result]
  rw [vec2_scale_add, vec2_scale_add, vec2_add_eq_add, vec2_add_eq_add]
  have hz : ((0, 0) : Vec2) = 0 := rfl
  rw [hz] at hcancel
  linear_combination hcancel

/-- C3 witness: 1-by-2 board, Sand at `(0,0)` with velocity `(1,0)`
pushing into the Water cell at `(1,0)`; the square root is exact at the
evaluated point `1`. -/
theorem push_conserves_effective_momentum_witness :
    grid_get ⟨1, 2, [⟨(1, 0), (0, 0), Species.Sand⟩, ⟨(0, 0), (0, 0), Species.Water⟩]⟩
        ((0 : ℤ), (0 : ℤ)) = some ⟨(1, 0), (0, 0), Species.Sand⟩ ∧
    total_eff_momentum (push_at (fun q => q)
        ⟨1, 2, [⟨(1, 0), (0, 0), Species.Sand⟩, ⟨(0, 0), (0, 0), Species.Water⟩]⟩
        ((0 : ℤ), (0 : ℤ))) =
      total_eff_momentum
        ⟨1, 2, [⟨(1, 0), (0, 0), Species.Sand⟩, ⟨(0, 0), (0, 0), Species.Water⟩]⟩ := by
  have hc : grid_get ⟨1, 2, [⟨(1, 0), (0, 0), Species.Sand⟩, ⟨(0, 0), (0, 0), Species.Water⟩]⟩
      ((0 : ℤ), (0 : ℤ)) = some ⟨(1, 0), (0, 0), Species.Sand⟩ := by
    norm_num [grid_get, SimGrid.get]
  have ho : grid_get ⟨1, 2, [⟨(1, 0), (0, 0), Species.Sand⟩, ⟨(0, 0), (0, 0), Species.Water⟩]⟩
      (loc2_add ((0 : ℤ), (0 : ℤ))
        (velocity_to_offset ((⟨(1, 0), (0, 0), Species.Sand⟩ : Cell).velocity))) =
      some ⟨(0, 0), (0, 0), Species.Water⟩ := by
    norm_num [grid_get, SimGrid.get, velocity_to_offset, loc2_add]
  exact ⟨hc, push_conserves_effective_momentum (fun q => q) _ _ _ _ hc ho⟩

/-- C3 (counterexample): with a Sand cell (effective mass `2.5`) pushing
into a Water cell (effective mass `0.7`), the pushing sub-step alone
changes the true mass-weighted momentum `Σ mass·velocity` — different
solidities make the mass-weighted impulses unbalanced. -/
theorem push_mass_momentum_not_conserved :
    total_momentum (push_at (fun q => q)
        ⟨1, 2, [⟨(1, 0), (0, 0), Species.Sand⟩, ⟨(0, 0), (0, 0), Species.Water⟩]⟩
        ((0 : ℤ), (0 : ℤ))) ≠
      total_momentum
        ⟨1, 2, [⟨(1, 0), (0, 0), Species.Sand⟩, ⟨(0, 0), (0, 0), Species.Water⟩]⟩ := by
  norm_num [push_at, collision_impacts, total_momentum, grid_get, grid_set, SimGrid.get,
    SimGrid.set, velocity_to_offset, loc2_add, vec2_add, vec2_sub, vec2_scale, vec2_dot,
    vec2_square_len, vec2_normalized, vec2_len, cap_vec, Cell.get_subgrid_offset,
    Species.get_mass, Species.get_solidity, Species.get_elasticity,
    Species.get_subgrid_magnitude, Prod.ext_iff]

lemma vec2_scale_inv_mass (h : Vec2) (m : ℚ) (hm : m ≠ 0) :
    vec2_scale (vec2_scale h (1 / m)) m = h := by
  unfold vec2_scale
  exact Prod.ext (by field_simp) (by field_simp)

lemma vec2_add_zero_right (a : Vec2) : vec2_add a (0, 0) = a := by
  unfold vec2_add
  simp

/-- Distributing `heat / neighborMass` over a list of locations adds
exactly `heat` per location that exists, in true mass-weighted momentum. -/
lemma friction_fold_momentum : ∀ (ns : List Loc2) (g : SimGrid) (heat : Vec2),
    total_momentum (ns.foldl (fun g2 n =>
      match grid_get g2 n with
      | some o => grid_set g2 n
          { o with velocity := vec2_add o.velocity (vec2_scale heat (1 / o.species.get_mass)) }
      | none => g2) g) =
      vec2_add (total_momentum g)
        (vec2_scale heat (((ns.filter (fun n => (grid_get g n).isSome)).length : ℚ)))
  | [], g, heat => by
      simp [vec2_scale, vec2_add]
  | n :: ns, g, heat => by
      rw [List.foldl_cons, List.filter_cons]
      cases hn : grid_get g n with
      | some o =>
          dsimp only
          rw [friction_fold_momentum ns _ heat]
          have hpres : (ns.filter (fun n2 => (grid_get (grid_set g n
              { o with velocity := vec2_add o.velocity (vec2_scale heat (1 / o.species.get_mass)) })
                n2).isSome)) =
              ns.filter (fun n2 => (grid_get g n2).isSome) :=
            List.filter_congr (fun n2 _ => by rw [grid_get_isSome_grid_set])
          rw [hpres]
          have htot : total_momentum (grid_set g n
              { o with velocity := vec2_add o.velocity (vec2_scale heat (1 / o.species.get_mass)) }) =
              vec2_add (total_momentum g) heat := by
            unfold total_momentum
            rw [map_sum_grid_set (fun c => vec2_scale c.velocity c.species.get_mass) g n _ o hn]
            dsimp only
            rw [vec2_scale_add, vec2_scale_inv_mass heat o.species.get_mass
              (ne_of_gt (mass_pos o.species))]
            rw [vec2_add_eq_add, vec2_add_eq_add]
            abel
          rw [htot]
          simp only [Option.isSome_some, eq_self_iff_true, if_true, List.length_cons]
          rw [vec2_add_eq_add, vec2_add_eq_add, vec2_add_eq_add]
          have hlen : ((((ns.filter (fun n => (grid_get g n).isSome)).length + 1 : ℕ)) : ℚ) =
              (((ns.filter (fun n => (grid_get g n).isSome)).length : ℕ) : ℚ) + 1 := by
            push_cast
            ring
          rw [hlen]
          unfold vec2_scale
          rw [Prod.ext_iff]
          constructor <;> (dsimp only [Prod.fst_add, Prod.snd_add]; ring)
      | none =>
          dsimp only
          rw [friction_fold_momentum ns g heat]
          rw [if_neg (by simp)]

/-- The exact momentum ledger of one friction sub-step: the cell sheds
`fc·mass·velocity` and each of the `k` existing neighbors receives
`fc/4·mass·velocity`, so the grid total changes by
`fc·mass·velocity·(k/4 - 1)`. -/
lemma friction_at_momentum (g : SimGrid) (loc : Loc2) (cell : Cell)
    (hc : grid_get g loc = some cell) :
    total_momentum (friction_at g loc) =
      vec2_add (total_momentum g)
        (vec2_scale cell.velocity
          (cell.species.get_friction_coeff * cell.species.get_mass *
            ((((neighbors loc).filter (fun n => (grid_get g n).isSome)).length : ℚ) / 4 - 1))) := by
  unfold friction_at
  split
  · rename_i hnone
    rw [hc] at hnone
    exact absurd hnone (by simp)
  · rename_i c hsome
    rw [hc] at hsome
    injection hsome with hcc
    subst hcc
    dsimp only
    rw [friction_fold_momentum]
    have hpres : ((neighbors loc).filter (fun n => (grid_get (grid_set g loc
        { cell with velocity := vec2_scale cell.velocity (1 - cell.species.get_friction_coeff) }) n).isSome)) =
        (neighbors loc).filter (fun n => (grid_get g n).isSome) :=
      List.filter_congr (fun n _ => by rw [grid_get_isSome_grid_set])
    rw [hpres]
    have htot1 : total_momentum (grid_set g loc
        { cell with velocity := vec2_scale cell.velocity (1 - cell.species.get_friction_coeff) }) =
        total_momentum g -
          vec2_scale cell.velocity cell.species.get_mass +
          vec2_scale (vec2_scale cell.velocity (1 - cell.species.get_friction_coeff))
            cell.species.get_mass := by
      unfold total_momentum
      exact map_sum_grid_set (fun c2 => vec2_scale c2.velocity c2.species.get_mass) g loc _ cell hc
    rw [htot1]
    rw [vec2_add_eq_add, vec2_add_eq_add]
    unfold vec2_scale
    rw [Prod.ext_iff]
    constructor <;>
      (dsimp only [Prod.fst_add, Prod.snd_add, Prod.fst_sub, Prod.snd_sub]; ring)

/-- C4 (amended): the friction sub-step changes the total mass-weighted
momentum by exactly `fc·mass·velocity·(k/4 - 1)` where `k` is the number
of in-bounds neighbors; momentum is removed only at the boundary
(`k < 4`), and for an interior cell (`k = 4`) friction conserves the total
momentum exactly — the heat handed to the neighbors restores precisely
what the cell sheds. -/
theorem friction_momentum_delta (g : SimGrid) (loc : Loc2) (cell : Cell)
    (hc : grid_get g loc = some cell) :
    total_momentum (friction_at g loc) =
      vec2_add (total_momentum g)
        (vec2_scale cell.velocity
          (cell.species.get_friction_coeff * cell.species.get_mass *
            ((((neighbors loc).filter (fun n => (grid_get g n).isSome)).length : ℚ) / 4 - 1))) ∧
    (((neighbors loc).filter (fun n => (grid_get g n).isSome)).length = 4 →
      total_momentum (friction_at g loc) = total_momentum g) := by
  refine ⟨friction_at_momentum g loc cell hc, ?_⟩
  intro h4
  rw [friction_at_momentum g loc cell hc, h4]
  norm_num [vec2_scale, vec2_add]

/-- C4 witness: the center of `airCross` has all 4 neighbors in bounds, so
its friction sub-step conserves the total momentum. -/
theorem friction_momentum_delta_witness :
    grid_get airCross ((1 : ℤ), (1 : ℤ)) = some ⟨(0, 1), (0, 0), Species.Air⟩ ∧
    total_momentum (friction_at airCross ((1 : ℤ), (1 : ℤ))) = total_momentum airCross := by
  have hc : grid_get airCross ((1 : ℤ), (1 : ℤ)) = some ⟨(0, 1), (0, 0), Species.Air⟩ := by
    norm_num [grid_get, SimGrid.get, airCross]
  have h4 : (((neighbors ((1 : ℤ), (1 : ℤ))).filter
      (fun n => (grid_get airCross n).isSome)).length) = 4 := by
    norm_num [neighbors, loc2_add, grid_get, SimGrid.get, airCross, List.filter,
      show (0 : ℤ).toNat = 0 from rfl, show (1 : ℤ).toNat = 1 from rfl,
      show (2 : ℤ).toNat = 2 from rfl]
  exact ⟨hc, (friction_momentum_delta airCross ((1 : ℤ), (1 : ℤ)) _ hc).2 h4⟩

/-- C4 (counterexample): the center cell of `airCross` has a nonzero
friction coefficient and nonzero velocity, yet its friction sub-step
leaves the total mass-weighted momentum exactly unchanged — friction does
not strictly remove momentum for interior cells. -/
theorem friction_no_strict_momentum_decrease :
    Species.Air.get_friction_coeff ≠ 0 ∧
    ((⟨(0, 1), (0, 0), Species.Air⟩ : Cell).velocity ≠ ((0 : ℚ), (0 : ℚ))) ∧
    total_momentum (friction_at airCross ((1 : ℤ), (1 : ℤ))) = total_momentum airCross := by
  have hc : grid_get airCross ((1 : ℤ), (1 : ℤ)) = some ⟨(0, 1), (0, 0), Species.Air⟩ := by
    norm_num [grid_get, SimGrid.get, airCross]
  have h4 : (((neighbors ((1 : ℤ), (1 : ℤ))).filter
      (fun n => (grid_get airCross n).isSome)).length) = 4 := by
    norm_num [neighbors, loc2_add, grid_get, SimGrid.get, airCross, List.filter,
      show (0 : ℤ).toNat = 0 from rfl, show (1 : ℤ).toNat = 1 from rfl,
      show (2 : ℤ).toNat = 2 from rfl]
  refine ⟨by norm_num [Species.get_friction_coeff], by norm_num [Prod.ext_iff], ?_⟩
  rw [friction_at_momentum airCross ((1 : ℤ), (1 : ℤ)) ⟨(0, 1), (0, 0), Species.Air⟩ hc, h4]
  norm_num [vec2_scale, vec2_add]

/-- C8: constructing a board with zero columns or zero rows fails fast at
construction (modelled from the spec's construction contract, the crate
code being outside `src/`); for positive dimensions `Board::new` yields a
board of exactly those dimensions with every cell Air, zero velocity and
zero motion. -/
theorem board_new_contract (cols rows : Nat) :
    (cols = 0 ∨ rows = 0 → Board.new cols rows = none) ∧
    (0 < cols → 0 < rows → ∃ b, Board.new cols rows = some b ∧
      b.grid.rows = rows ∧ b.grid.cols = cols ∧ b.grid.data.length = rows * cols ∧
      ∀ c ∈ b.grid.data, c = Cell.default) := by
  constructor
  · intro h
    unfold Board.new
    rw [if_pos (Or.symm h)]
  · intro hcols hrows
    unfold Board.new
    rw [if_neg (by rintro (h | h) <;> omega)]
    exact ⟨_, rfl, rfl, rfl, by simp, fun c hm => List.eq_of_mem_replicate hm⟩

/-- C8 witness: zero columns fail; 3-by-2 construction succeeds all-Air. -/
theorem board_new_contract_witness :
    Board.new 0 5 = none ∧
    ∃ b, Board.new 3 2 = some b ∧ b.grid.rows = 2 ∧ b.grid.cols = 3 ∧
      b.grid.data.length = 2 * 3 ∧ ∀ c ∈ b.grid.data, c = Cell.default :=
  ⟨(board_new_contract 0 5).1 (Or.inl rfl),
    (board_new_contract 3 2).2 (by norm_num) (by norm_num)⟩
